import Mathlib

/-!
# Verification of the order pricing/allocation engine

Shallow embedding of the core of the `order-management-system` repository:

* `src/src/services/order.service.ts` — `OrderService` (`calculateDiscount`,
  `findOptimalWarehouses`, `getWarehousesByDistance`, `calculateOrderCosts`,
  `validateShippingCost`, `verifyOrder`, `createOrder`);
* `src/src/models/warehouse.model.ts` — `Warehouse.updateStock`;
* `src/src/models/order.model.ts` — `Order`, `OrderItem`, the
  `onDelete: CASCADE` association;
* `src/unnamed/part_004` — `OrderService.deleteOrder` and
  `src/src/controllers/order.controller.ts` — its NotFound mapping.

Modelling conventions:

* Monetary amounts and distances are `ℚ`.  The source uses `decimal.js`
  (exact decimal arithmetic); for the magnitudes reachable from the
  `INTEGER`-typed quantity and stock columns every product in the pricing
  pipeline is exactly representable within decimal.js's default 20
  significant digits, so exact rationals are a faithful model.
* Quantities and stocks are `ℤ` (JavaScript numbers holding values of
  `INTEGER` columns; the core performs no positivity validation itself).
* The PostGIS distance of each warehouse row from the request destination is
  carried as a field of the row: `ST_Distance` is a deterministic function
  of the stored location and the destination, computed by the database.
* Fallible code returns `Except`.
-/

/-- One row of the `warehouses` table as returned by the SQL query in
`OrderService.getWarehousesByDistance`: id, name, stock, and the computed
distance (km) from the request destination.  Warehouse ids are modelled as
naturals (the UUID primary key is an opaque identity). -/
structure WhRow where
  wid : Nat
  name : String
  stock : Int
  distance : ℚ
deriving DecidableEq

/-- A `WarehouseAllocation` produced by `OrderService.findOptimalWarehouses`
(order.service.ts lines 36–44): warehouse id and name, quantity drawn,
distance, and per-line shipping cost. -/
structure WarehouseAllocation where
  warehouseId : Nat
  warehouseName : String
  quantity : Int
  distance : ℚ
  shippingCost : ℚ
deriving DecidableEq

/-- Order status enum from order.model.ts lines 4–9. -/
inductive OrderStatus where
  | PENDING
  | PROCESSING
  | COMPLETED
  | CANCELLED
deriving DecidableEq

/-- A persisted `Order` row (order.model.ts lines 65–108), restricted to the
fields the core writes in `createOrder`. -/
structure OrderRow where
  oid : Nat
  quantity : Int
  totalPrice : ℚ
  discount : ℚ
  shippingCost : ℚ
  status : OrderStatus
deriving DecidableEq

/-- A persisted `OrderItem` row (order.model.ts lines 12–33, with the
per-item `shippingCost` written by createOrder in order.service.ts
line 302). -/
structure OrderItemRow where
  orderId : Nat
  warehouseId : Nat
  quantity : Int
  shippingCost : ℚ
deriving DecidableEq

/-- The database state visible to the core: the `warehouses`, `orders` and
`order_items` tables. -/
structure Db where
  warehouses : List WhRow
  orders : List OrderRow
  orderItems : List OrderItemRow
deriving DecidableEq

/-- Error outcomes of the core (each corresponds to a `throw new Error(...)`
site in the source). -/
inductive OrderError where
  /-- order.service.ts lines 116–120: `Cannot fulfill order: <n> units
  couldn't be allocated due to insufficient stock`. -/
  | insufficientStock (remaining : Int)
  /-- order.service.ts lines 218–223: `shipping cost exceeds 15% of order
  amount`. -/
  | shippingCostExceeded
  /-- order.service.ts line 314: `Warehouse <id> not found`. -/
  | warehouseNotFound (wid : Nat)
  /-- order.service.ts lines 318–322: recheck after locking,
  `Insufficient stock in warehouse <name>`. -/
  | stockChanged (name : String)
  /-- warehouse.model.ts lines 26–28: `Not enough stock available in
  warehouse <name>`. -/
  | notEnoughStock (name : String)
  /-- A failed database insert (`Order.create` / `OrderItem.create`
  rejecting), as exercised by the repository's
  transaction-error-handling tests. -/
  | insertFailure
  /-- The bounded lock wait (spec section 5) expiring on a blocked
  `UPDATE`: the out-of-transaction `save()` issued by `updateStock` waits
  on the row lock the create transaction itself holds and is aborted by
  the lock-wait timeout. -/
  | lockTimeout
  /-- Controller-level 404 for an unknown order id. -/
  | notFound
deriving DecidableEq

/-- `SHIPPING_RATE = new Decimal(0.01)` (order.service.ts line 47). -/
def SHIPPING_RATE : ℚ := 1 / 100

/-- `DEVICE_WEIGHT_KG = new Decimal(0.365)` (order.service.ts line 48). -/
def DEVICE_WEIGHT_KG : ℚ := 365 / 1000

/-- `DEVICE_PRICE = new Decimal(150)` (order.service.ts line 49). -/
def DEVICE_PRICE : ℚ := 150

/-- `OrderService.calculateDiscount` (order.service.ts lines 54–60). -/
def calculateDiscount (quantity : Int) : ℚ :=
  if 250 ≤ quantity then 2 / 10
  else if 100 ≤ quantity then 15 / 100
  else if 50 ≤ quantity then 1 / 10
  else if 25 ≤ quantity then 5 / 100
  else 0

/-- Modelled from the spec: the discount tier table of §4.2 stated with
lower-inclusive interval boundaries, to be compared with the source's
`calculateDiscount`. -/
def discountRateSpec (quantity : Int) : ℚ :=
  if quantity < 25 then 0
  else if quantity < 50 then 5 / 100
  else if quantity < 100 then 1 / 10
  else if quantity < 250 then 15 / 100
  else 2 / 10

/-- The allocation loop of `OrderService.findOptimalWarehouses`
(order.service.ts lines 86–113): walk the distance-ordered rows; break when
`remainingQuantity <= 0`; draw `min(stock, remainingQuantity)`; emit a line
(with shipping cost `SHIPPING_RATE * draw * DEVICE_WEIGHT_KG * distance`)
when the draw is positive; return the lines and the final remaining
quantity. -/
def allocateLoop : List WhRow → Int → List WarehouseAllocation × Int
  | [], remaining => ([], remaining)
  | w :: ws, remaining =>
    if remaining ≤ 0 then ([], remaining)
    else
      let draw := min w.stock remaining
      if 0 < draw then
        let cost := SHIPPING_RATE * (draw : ℚ) * DEVICE_WEIGHT_KG * w.distance
        let rest := allocateLoop ws (remaining - draw)
        (⟨w.wid, w.name, draw, w.distance, cost⟩ :: rest.1, rest.2)
      else
        allocateLoop ws remaining

/-- `OrderService.findOptimalWarehouses` (order.service.ts lines 67–123),
given the rows already returned by the distance query: run the allocation
loop and fail with the remaining (unallocatable) quantity if it is still
positive. -/
def findOptimalWarehouses (rows : List WhRow) (quantity : Int) :
    Except OrderError (List WarehouseAllocation) :=
  let r := allocateLoop rows quantity
  if 0 < r.2 then .error (.insufficientStock r.2) else .ok r.1

/-- The contract of the SQL query in `OrderService.getWarehousesByDistance`
(order.service.ts lines 148–165): `SELECT ... FROM warehouses WHERE
stock > 0 ORDER BY distance ASC`.  The result is some permutation of the
rows with positive stock, sorted by distance; PostgreSQL specifies no
order among rows with equal sort keys (there is no secondary sort column),
so any distance-sorted permutation is an admissible result. -/
def warehousesByDistanceResult (table rows : List WhRow) : Prop :=
  List.Perm rows (table.filter (fun w => 0 < w.stock)) ∧
  List.Pairwise (fun a b => a.distance ≤ b.distance) rows

instance (table rows : List WhRow) :
    Decidable (warehousesByDistanceResult table rows) := by
  unfold warehousesByDistanceResult; exact inferInstance

/-- The result record of `OrderService.calculateOrderCosts`
(order.service.ts lines 187–213). -/
structure OrderCosts where
  basePrice : ℚ
  totalPrice : ℚ
  discount : ℚ
  shippingCost : ℚ
deriving DecidableEq

/-- `OrderService.calculateOrderCosts` (order.service.ts lines 187–213):
base price, tiered discount, summed shipping cost, discounted total. -/
def calculateOrderCosts (quantity : Int) (allocations : List WarehouseAllocation) :
    OrderCosts :=
  let basePrice := DEVICE_PRICE * (quantity : ℚ)
  let discountRate := calculateDiscount quantity
  let discount := basePrice * discountRate
  let shippingCost := allocations.foldl (fun sum a => sum + a.shippingCost) 0
  let totalPrice := basePrice - discount
  ⟨basePrice, totalPrice, discount, shippingCost⟩

/-- `OrderService.validateShippingCost` (order.service.ts lines 218–223):
throw iff the shipping cost strictly exceeds 15% of the discounted total. -/
def validateShippingCost (totalPrice shippingCost : ℚ) : Except OrderError Unit :=
  if totalPrice * (15 / 100) < shippingCost then .error .shippingCostExceeded
  else .ok ()

/-- The `OrderResult` returned by `OrderService.verifyOrder`
(order.service.ts lines 20–34 and 250–259), restricted to the
computed fields.  Note the interface has no validity flag. -/
structure OrderResult where
  quantity : Int
  basePrice : ℚ
  totalPrice : ℚ
  discount : ℚ
  shippingCost : ℚ
  items : List WarehouseAllocation
deriving DecidableEq

/-- `OrderService.verifyOrder` (order.service.ts lines 229–263): allocate,
price, validate the shipping cap (rethrowing its error), and return the
quote.  It is pure in the given query rows and performs no writes. -/
def verifyOrder (quantity : Int) (rows : List WhRow) : Except OrderError OrderResult :=
  match findOptimalWarehouses rows quantity with
  | .error e => .error e
  | .ok allocations =>
    let c := calculateOrderCosts quantity allocations
    match validateShippingCost c.totalPrice c.shippingCost with
    | .error e => .error e
    | .ok _ => .ok ⟨quantity, c.basePrice, c.totalPrice, c.discount, c.shippingCost, allocations⟩

/-- Write a new stock value into the warehouse table (the SQL `UPDATE`
issued by Sequelize's `save()` for a changed `stock` attribute). -/
def setStock (ws : List WhRow) (wid : Nat) (s : Int) : List WhRow :=
  ws.map (fun w => if w.wid = wid then { w with stock := s } else w)

/-- `Warehouse.updateStock` (warehouse.model.ts lines 25–31) applied to the
table: look the warehouse up, throw when `stock < quantity`, otherwise
persist `stock - quantity`.  The method takes no transaction parameter, so
its `save()` is not attached to any caller transaction. -/
def updateStockDb (ws : List WhRow) (wid : Nat) (quantity : Int) :
    Except OrderError (List WhRow) :=
  match ws.find? (fun w => w.wid = wid) with
  | none => .error (.warehouseNotFound wid)
  | some w =>
    if w.stock < quantity then .error (.notEnoughStock w.name)
    else .ok (setStock ws wid (w.stock - quantity))

/-- The per-allocation loop of `OrderService.createOrder` (order.service.ts
lines 295–326).  For each allocation, in source order: `OrderItem.create`
(a transactional insert, modelled with a failure oracle `itemFail`
mirroring the repository's transaction-error-handling tests that make it
reject), then `Warehouse.findByPk` with a row lock reading the
transaction's snapshot (`snapshot`), the stock recheck, and
`warehouse.updateStock(quantity, transaction)`.

`updateStock` (warehouse.model.ts line 25) declares no transaction
parameter, so the passed transaction is dropped and the stock `save()` is
issued on a separate connection OUTSIDE the create transaction.  That
`UPDATE` must wait for the warehouse row lock the create transaction
itself already holds (the `FOR UPDATE` query at order.service.ts line
146), while the transaction callback is awaiting the save — so the save
can never commit while the transaction is open, and under the bounded
lock wait the persistence layer provides (spec section 5) it resolves as a
lock-wait-timeout error.  The loop therefore aborts at the first
`updateStock` it reaches, with no stock ever written; failures injected
before that point (`itemFail`, a missing warehouse, the recheck) surface
their own errors first. -/
def createLoop (snapshot : List WhRow) (_oid : Nat) (itemFail : Nat → Bool) :
    List WarehouseAllocation → Nat → Except OrderError (List OrderItemRow)
  | [], _ => .ok []
  | a :: _, i =>
    if itemFail i then .error .insertFailure
    else
      match snapshot.find? (fun w => w.wid = a.warehouseId) with
      | none => .error (.warehouseNotFound a.warehouseId)
      | some w =>
        if w.stock < a.quantity then .error (.stockChanged w.name)
        else
          -- `updateStock`'s guard passes, then its `this.save()` blocks on
          -- the create transaction's own row lock and times out: the
          -- iteration cannot complete and no later iteration is reached.
          .error .lockTimeout

deriving instance DecidableEq for Except

/-- Outcome of a create attempt: the result surfaced to the caller and the
database state observable after the transaction has committed or rolled
back. -/
structure CreateOutcome where
  result : Except OrderError OrderRow
  db : Db
deriving DecidableEq

/-- `OrderService.createOrder` (order.service.ts lines 268–359).  Inside a
transaction: `verifyOrder` over the `FOR UPDATE`-locked query rows
(an error here aborts with nothing written), `Order.create` (transactional,
with failure oracle `orderFail`), then the per-allocation loop.  On any
error the transaction rolls back and the `Order` and `OrderItem` inserts
are undone; no stock write can have committed, because `updateStock`'s
out-of-transaction `save()` blocks on the transaction's own row lock and
is aborted by the lock-wait timeout rather than ever acquiring it — so a
failed attempt leaves the database exactly as it was.  (The flip side:
with a nonempty allocation the loop always fails at its first
`updateStock`, so such a create can never commit; only an empty
allocation reaches the success branch.) -/
def createOrder (db : Db) (rows : List WhRow) (quantity : Int) (newOid : Nat)
    (orderFail : Bool) (itemFail : Nat → Bool) : CreateOutcome :=
  match verifyOrder quantity rows with
  | .error e => ⟨.error e, db⟩
  | .ok v =>
    if orderFail then ⟨.error .insertFailure, db⟩
    else
      let order : OrderRow := ⟨newOid, quantity, v.totalPrice, v.discount,
        v.shippingCost, .PENDING⟩
      match createLoop db.warehouses newOid itemFail v.items 0 with
      | .ok items =>
        ⟨.ok order, ⟨db.warehouses, db.orders ++ [order], db.orderItems ++ items⟩⟩
      | .error e => ⟨.error e, db⟩

/-- `OrderService.deleteOrder` (src/unnamed/part_004 lines 413–416):
`Order.destroy({ where: { id } })` deletes the order row; the
`onDelete: 'CASCADE'` association (order.model.ts lines 171–176)
cascade-deletes its `OrderItem` rows; the call returns whether a row was
deleted.  Warehouses are untouched. -/
def deleteOrder (db : Db) (oid : Nat) : Bool × Db :=
  (db.orders.any (fun o => o.oid = oid),
   ⟨db.warehouses,
    db.orders.filter (fun o => ¬ o.oid = oid),
    db.orderItems.filter (fun it => ¬ it.orderId = oid)⟩)

/-- The DELETE endpoint (order.controller.ts lines 190–210): a `false`
result from `deleteOrder` is surfaced as NotFound. -/
def deleteOrderEndpoint (db : Db) (oid : Nat) : Except OrderError Db :=
  let r := deleteOrder db oid
  if r.1 then .ok r.2 else .error .notFound

/-- A core operation touching warehouse stock: a read-only verify, a create
attempt (with its query rows, fresh order id and failure oracles), or a
direct `Warehouse.updateStock` call.  A concurrent execution of such
operations is serialized by the row locks into an arbitrary interleaving,
modelled as a sequence. -/
inductive CoreOp where
  | verifyOp (quantity : Int) (rows : List WhRow)
  | createOp (rows : List WhRow) (quantity : Int) (newOid : Nat)
      (orderFail : Bool) (itemFail : Nat → Bool)
  | stockOp (wid : Nat) (quantity : Int)

/-- Committed database state after one core operation.  `verifyOrder` is
read-only; a failed `updateStock` throws without saving, leaving the state
unchanged. -/
def stepOp (db : Db) : CoreOp → Db
  | .verifyOp _ _ => db
  | .createOp rows q oid orderFail itemFail =>
    (createOrder db rows q oid orderFail itemFail).db
  | .stockOp wid q =>
    match updateStockDb db.warehouses wid q with
    | .ok ws' => ⟨ws', db.orders, db.orderItems⟩
    | .error _ => db

/-- The §3 data-model invariant: every warehouse's stock is nonnegative. -/
def nonnegStocks (db : Db) : Prop := ∀ w ∈ db.warehouses, 0 ≤ w.stock

instance (db : Db) : Decidable (nonnegStocks db) := by
  unfold nonnegStocks; exact inferInstance

/-- Sum of the quantities of a list of allocation lines. -/
def sumQ (allocations : List WarehouseAllocation) : Int :=
  (allocations.map (fun a => a.quantity)).sum

/-- Sum of the stocks of a list of warehouse rows. -/
def sumStocks (rows : List WhRow) : Int := (rows.map (fun w => w.stock)).sum

/-- The allocation line emitted for warehouse `w` with draw `d`
(order.service.ts lines 97–109). -/
def mkLine (w : WhRow) (d : Int) : WarehouseAllocation :=
  ⟨w.wid, w.name, d, w.distance, SHIPPING_RATE * (d : ℚ) * DEVICE_WEIGHT_KG * w.distance⟩

/-! ## Concrete fixtures used to exercise the definitions -/

/-- Two warehouses at 1 km and 2 km with stocks 3 and 5. -/
def rowsTwo : List WhRow := [⟨1, "A", 3, 1⟩, ⟨2, "B", 5, 2⟩]

/-- The allocation the loop produces from `rowsTwo` for quantity 7. -/
def allocsTwo : List WarehouseAllocation :=
  [mkLine ⟨1, "A", 3, 1⟩ 3, mkLine ⟨2, "B", 5, 2⟩ 4]

/-- A database with one warehouse of stock 5. -/
def dbOne : Db := ⟨[⟨1, "A", 5, 1⟩], [], []⟩

/-- A database with two warehouses of stock 5 each. -/
def dbPair : Db := ⟨[⟨1, "A", 5, 1⟩, ⟨2, "B", 5, 2⟩], [], []⟩

/-- A single warehouse 10000 km away: any order from it violates the 15%
shipping cap. -/
def rowsFar : List WhRow := [⟨1, "Far", 10, 10000⟩]

/-- A database holding only the far warehouse. -/
def dbFar : Db := ⟨[⟨1, "Far", 10, 10000⟩], [], []⟩

/-- Two equidistant warehouses (both 3 km away) with positive stock. -/
def tieTbl : List WhRow := [⟨1, "A", 5, 3⟩, ⟨2, "B", 5, 3⟩]

/-- The equidistant warehouses in the opposite order. -/
def tieRowsBA : List WhRow := [⟨2, "B", 5, 3⟩, ⟨1, "A", 5, 3⟩]

/-- A database with two orders (ids 4 and 5) and their items. -/
def dbDel : Db :=
  ⟨[⟨1, "A", 5, 1⟩],
   [⟨4, 2, 300, 0, 1, .PENDING⟩, ⟨5, 1, 150, 0, 1, .PENDING⟩],
   [⟨4, 1, 2, 1⟩, ⟨5, 1, 1, 1⟩]⟩

/-! ## Helper lemmas about the allocation loop -/

theorem sumQ_nil : sumQ [] = 0 := rfl

theorem sumQ_cons (a : WarehouseAllocation) (l : List WarehouseAllocation) :
    sumQ (a :: l) = a.quantity + sumQ l := by
  simp [sumQ]

/-- The allocation loop draws exactly the difference between the requested
and the remaining quantity. -/
theorem allocateLoop_sum (rows : List WhRow) (rem : Int) :
    sumQ (allocateLoop rows rem).1 = rem - (allocateLoop rows rem).2 := by
  induction rows generalizing rem with
  | nil => simp [allocateLoop, sumQ]
  | cons w ws ih =>
    by_cases h : rem ≤ 0
    · simp [allocateLoop, h, sumQ]
    · by_cases h2 : 0 < min w.stock rem
      · simp only [allocateLoop, if_neg h, if_pos h2, sumQ_cons]
        rw [ih]
        ring
      · simpa only [allocateLoop, if_neg h, if_neg h2] using ih rem

/-- The remaining quantity never becomes negative. -/
theorem allocateLoop_nonneg (rows : List WhRow) (rem : Int) (h : 0 ≤ rem) :
    0 ≤ (allocateLoop rows rem).2 := by
  induction rows generalizing rem with
  | nil => simpa [allocateLoop]
  | cons w ws ih =>
    by_cases h1 : rem ≤ 0
    · simpa [allocateLoop, h1]
    · by_cases h2 : 0 < min w.stock rem
      · simp only [allocateLoop, if_neg h1, if_pos h2]
        exact ih (rem - min w.stock rem) (by omega)
      · simpa only [allocateLoop, if_neg h1, if_neg h2] using ih rem h

/-- Every emitted line comes from one of the query rows, draws a positive
quantity bounded by that row's stock, and copies the row's identity, name
and distance, with the per-line shipping cost formula of the source. -/
theorem allocateLoop_mem (rows : List WhRow) (rem : Int) (a : WarehouseAllocation)
    (ha : a ∈ (allocateLoop rows rem).1) :
    ∃ w ∈ rows, a.warehouseId = w.wid ∧ a.warehouseName = w.name ∧
      a.distance = w.distance ∧ 0 < a.quantity ∧ a.quantity ≤ w.stock ∧
      a.shippingCost = SHIPPING_RATE * (a.quantity : ℚ) * DEVICE_WEIGHT_KG * w.distance := by
  induction rows generalizing rem with
  | nil => simp [allocateLoop] at ha
  | cons w ws ih =>
    by_cases h1 : rem ≤ 0
    · simp [allocateLoop, h1] at ha
    · by_cases h2 : 0 < min w.stock rem
      · simp only [allocateLoop, if_neg h1, if_pos h2, List.mem_cons] at ha
        rcases ha with ha | ha
        · refine ⟨w, List.mem_cons_self w ws, ?_⟩
          subst ha
          refine ⟨rfl, rfl, rfl, h2, min_le_left _ _, rfl⟩
        · obtain ⟨w', hw', hrest⟩ := ih (rem - min w.stock rem) ha
          exact ⟨w', List.mem_cons_of_mem w hw', hrest⟩
      · simp only [allocateLoop, if_neg h1, if_neg h2] at ha
        obtain ⟨w', hw', hrest⟩ := ih rem ha
        exact ⟨w', List.mem_cons_of_mem w hw', hrest⟩

/-- If the query rows are in non-decreasing distance order, so are the
emitted allocation lines. -/
theorem allocateLoop_sorted (rows : List WhRow) (rem : Int)
    (h : List.Pairwise (fun a b => a.distance ≤ b.distance) rows) :
    List.Pairwise (fun a b => a.distance ≤ b.distance) (allocateLoop rows rem).1 := by
  induction rows generalizing rem with
  | nil => simp [allocateLoop]
  | cons w ws ih =>
    rcases List.pairwise_cons.mp h with ⟨hw, hws⟩
    by_cases h1 : rem ≤ 0
    · simp [allocateLoop, h1]
    · by_cases h2 : 0 < min w.stock rem
      · simp only [allocateLoop, if_neg h1, if_pos h2]
        refine List.pairwise_cons.mpr ⟨?_, ih (rem - min w.stock rem) hws⟩
        intro a ha
        obtain ⟨w', hw', _, _, hd, _⟩ := allocateLoop_mem ws (rem - min w.stock rem) a ha
        simpa [hd] using hw w' hw'
      · simpa only [allocateLoop, if_neg h1, if_neg h2] using ih rem hws

/-- Unfolding equation: positive-draw step of the loop. -/
theorem allocateLoop_cons_pos (w : WhRow) (ws : List WhRow) (rem : Int)
    (h1 : ¬ rem ≤ 0) (h2 : 0 < min w.stock rem) :
    allocateLoop (w :: ws) rem =
      (mkLine w (min w.stock rem) :: (allocateLoop ws (rem - min w.stock rem)).1,
       (allocateLoop ws (rem - min w.stock rem)).2) := by
  simp only [allocateLoop, if_neg h1, if_pos h2, mkLine]

/-- Unfolding equation: zero-draw step of the loop. -/
theorem allocateLoop_cons_skip (w : WhRow) (ws : List WhRow) (rem : Int)
    (h1 : ¬ rem ≤ 0) (h2 : ¬ 0 < min w.stock rem) :
    allocateLoop (w :: ws) rem = allocateLoop ws rem := by
  simp only [allocateLoop, if_neg h1, if_neg h2]

/-- Unfolding equation: the loop breaks when the remaining quantity is not
positive. -/
theorem allocateLoop_cons_break (w : WhRow) (ws : List WhRow) (rem : Int)
    (h1 : rem ≤ 0) : allocateLoop (w :: ws) rem = ([], rem) := by
  simp only [allocateLoop, if_pos h1]

/-- The `i`-th emitted line draws exactly `min(warehouseStock,
remainingQuantity)`, where the remaining quantity before the line is the
request minus the sum of the earlier lines. -/
theorem allocateLoop_get (rows : List WhRow) (rem : Int) (i : Nat)
    (a : WarehouseAllocation) (ha : (allocateLoop rows rem).1.get? i = some a) :
    ∃ w ∈ rows, a = mkLine w (min w.stock (rem - sumQ ((allocateLoop rows rem).1.take i))) := by
  induction rows generalizing rem i with
  | nil => simp [allocateLoop] at ha
  | cons w ws ih =>
    by_cases h1 : rem ≤ 0
    · rw [allocateLoop_cons_break w ws rem h1] at ha
      simp at ha
    · by_cases h2 : 0 < min w.stock rem
      · rw [allocateLoop_cons_pos w ws rem h1 h2] at ha ⊢
        cases i with
        | zero =>
          refine ⟨w, List.mem_cons_self w ws, ?_⟩
          simp only [List.get?_cons_zero, Option.some.injEq] at ha
          subst ha
          simp [sumQ]
        | succ j =>
          rw [List.get?_cons_succ] at ha
          obtain ⟨w', hw', heq⟩ := ih (rem - min w.stock rem) j ha
          refine ⟨w', List.mem_cons_of_mem w hw', ?_⟩
          simp only [List.take_succ_cons, sumQ_cons, mkLine]
          rw [← sub_sub]
          exact heq
      · rw [allocateLoop_cons_skip w ws rem h1 h2] at ha ⊢
        obtain ⟨w', hw', heq⟩ := ih rem i ha
        exact ⟨w', List.mem_cons_of_mem w hw', heq⟩

/-- When every row has positive stock and the request is at least the total
stock, the loop drains every warehouse and the final remaining quantity is
the exact shortfall `rem - sumStocks rows`. -/
theorem allocateLoop_drain (rows : List WhRow) (rem : Int)
    (hpos : ∀ w ∈ rows, 0 < w.stock) (hge : sumStocks rows ≤ rem) :
    (allocateLoop rows rem).2 = rem - sumStocks rows := by
  induction rows generalizing rem with
  | nil => simp [allocateLoop, sumStocks]
  | cons w ws ih =>
    have hwpos : 0 < w.stock := hpos w (List.mem_cons_self w ws)
    have hwspos : ∀ v ∈ ws, 0 < v.stock := fun v hv => hpos v (List.mem_cons_of_mem w hv)
    have hsum : 0 ≤ sumStocks ws := by
      have : ∀ x ∈ ws.map (fun v => v.stock), 0 ≤ x := by
        intro x hx
        obtain ⟨v, hv, rfl⟩ := List.mem_map.mp hx
        exact le_of_lt (hwspos v hv)
      exact List.sum_nonneg this
    have hcons : sumStocks (w :: ws) = w.stock + sumStocks ws := by
      simp [sumStocks]
    have h1 : ¬ rem ≤ 0 := by omega
    have hms : min w.stock rem = w.stock := min_eq_left (by omega)
    have h2 : 0 < min w.stock rem := by omega
    simp only [allocateLoop, if_neg h1, if_pos h2]
    rw [hms, ih (rem - w.stock) hwspos (by omega)]
    omega

/-! ## Helper lemmas about stock writes -/

theorem setStock_nonneg (ws : List WhRow) (wid : Nat) (s : Int)
    (h : ∀ w ∈ ws, 0 ≤ w.stock) (hs : 0 ≤ s) :
    ∀ w ∈ setStock ws wid s, 0 ≤ w.stock := by
  intro w hw
  simp only [setStock, List.mem_map] at hw
  obtain ⟨w', hw', he⟩ := hw
  by_cases hid : w'.wid = wid
  · rw [if_pos hid] at he
    subst he
    exact hs
  · rw [if_neg hid] at he
    subst he
    exact h w' hw'

/-- `createOrder` never changes the warehouse table: its only stock write
(`updateStock`'s out-of-transaction `save()`) blocks on the transaction's
own row lock and is aborted by the lock-wait timeout, and every other
write is transactional.  In particular all stocks stay nonnegative. -/
theorem createOrder_warehouses (db : Db) (rows : List WhRow) (q : Int) (oid : Nat)
    (orderFail : Bool) (itemFail : Nat → Bool) :
    (createOrder db rows q oid orderFail itemFail).db.warehouses = db.warehouses := by
  unfold createOrder
  rcases hv : verifyOrder q rows with e | v
  · rfl
  · by_cases ho : orderFail
    · simp [ho]
    · simp only [ho, Bool.false_eq_true, if_false]
      rcases hrec : createLoop db.warehouses oid itemFail v.items 0 with e | items
      · rfl
      · rfl

/-- `createOrder` keeps all stocks nonnegative, whether it commits or rolls
back. -/
theorem createOrder_nonneg (db : Db) (rows : List WhRow) (q : Int) (oid : Nat)
    (orderFail : Bool) (itemFail : Nat → Bool) (h : nonnegStocks db) :
    nonnegStocks (createOrder db rows q oid orderFail itemFail).db := by
  intro w hw
  rw [createOrder_warehouses db rows q oid orderFail itemFail] at hw
  exact h w hw

/-- `updateStockDb` keeps all stocks nonnegative. -/
theorem updateStockDb_nonneg (ws : List WhRow) (wid : Nat) (q : Int) (ws' : List WhRow)
    (h : ∀ w ∈ ws, 0 ≤ w.stock) (hok : updateStockDb ws wid q = .ok ws') :
    ∀ w ∈ ws', 0 ≤ w.stock := by
  rcases hfind : ws.find? (fun w => w.wid = wid) with _ | w
  · simp only [updateStockDb, hfind] at hok
    exact absurd hok (by simp)
  · simp only [updateStockDb, hfind] at hok
    by_cases hs : w.stock < q
    · rw [if_pos hs] at hok
      exact absurd hok (by simp)
    · rw [if_neg hs] at hok
      obtain rfl : setStock ws wid (w.stock - q) = ws' := by
        simpa using hok
      exact setStock_nonneg ws wid (w.stock - q) h (by omega)

/-- One serialized core operation keeps all stocks nonnegative. -/
theorem stepOp_nonneg (db : Db) (op : CoreOp) (h : nonnegStocks db) :
    nonnegStocks (stepOp db op) := by
  cases op with
  | verifyOp q rows => exact h
  | createOp rows q oid orderFail itemFail =>
    exact createOrder_nonneg db rows q oid orderFail itemFail h
  | stockOp wid q =>
    rcases hup : updateStockDb db.warehouses wid q with e | ws'
    · simpa only [stepOp, hup] using h
    · simp only [stepOp, hup]
      exact updateStockDb_nonneg db.warehouses wid q ws' h hup

/-! ## Helper lemmas about error propagation through verify and create -/

theorem verifyOrder_alloc_error (q : Int) (rows : List WhRow) (e : OrderError)
    (h : findOptimalWarehouses rows q = .error e) : verifyOrder q rows = .error e := by
  simp [verifyOrder, h]

theorem verifyOrder_ok_valid (q : Int) (rows : List WhRow)
    (allocs : List WarehouseAllocation)
    (h : findOptimalWarehouses rows q = .ok allocs)
    (hv : ¬ (calculateOrderCosts q allocs).totalPrice * (15 / 100) <
        (calculateOrderCosts q allocs).shippingCost) :
    verifyOrder q rows = .ok ⟨q, (calculateOrderCosts q allocs).basePrice,
      (calculateOrderCosts q allocs).totalPrice, (calculateOrderCosts q allocs).discount,
      (calculateOrderCosts q allocs).shippingCost, allocs⟩ := by
  simp [verifyOrder, h, validateShippingCost, hv]

theorem verifyOrder_ok_invalid (q : Int) (rows : List WhRow)
    (allocs : List WarehouseAllocation)
    (h : findOptimalWarehouses rows q = .ok allocs)
    (hv : (calculateOrderCosts q allocs).totalPrice * (15 / 100) <
        (calculateOrderCosts q allocs).shippingCost) :
    verifyOrder q rows = .error .shippingCostExceeded := by
  simp [verifyOrder, h, validateShippingCost, hv]

/-- A create attempt either leaves the database unchanged or returned a
successfully created order: only the commit branch writes anything. -/
theorem createOrder_db_eq_or_ok (db : Db) (rows : List WhRow) (q : Int) (oid : Nat)
    (orderFail : Bool) (itemFail : Nat → Bool) :
    (createOrder db rows q oid orderFail itemFail).db = db ∨
    ∃ order, (createOrder db rows q oid orderFail itemFail).result = .ok order := by
  unfold createOrder
  rcases verifyOrder q rows with e | v
  · exact .inl rfl
  · by_cases ho : orderFail
    · simp [ho]
    · simp only [ho, Bool.false_eq_true, if_false]
      rcases createLoop db.warehouses oid itemFail v.items 0 with e | items
      · exact .inl rfl
      · exact .inr ⟨_, rfl⟩

/-- A verification failure aborts `createOrder` before any write. -/
theorem createOrder_verify_error (db : Db) (rows : List WhRow) (q : Int) (oid : Nat)
    (orderFail : Bool) (itemFail : Nat → Bool) (e : OrderError)
    (h : verifyOrder q rows = .error e) :
    createOrder db rows q oid orderFail itemFail = ⟨.error e, db⟩ := by
  simp [createOrder, h]

/-! ## Claim theorems -/

/-- C1: for every warehouse and every sequence of core operations (Verify,
Create, stock update), stock remains nonnegative: a stock decrement of `q`
units succeeds exactly when the current stock is at least `q`, and
otherwise fails without changing stock, so stock never goes negative —
concurrent decrements being serialized by the row locks into an arbitrary
interleaving of these atomic operations. -/
theorem claim1_stock_nonnegative (ops : List CoreOp) (db : Db) (h : nonnegStocks db) :
    nonnegStocks (ops.foldl stepOp db) ∧
    ∀ wid q w, db.warehouses.find? (fun x => x.wid = wid) = some w →
      (q ≤ w.stock → updateStockDb db.warehouses wid q =
        .ok (setStock db.warehouses wid (w.stock - q))) ∧
      (w.stock < q → updateStockDb db.warehouses wid q =
        .error (.notEnoughStock w.name)) := by
  constructor
  · induction ops generalizing db with
    | nil => exact h
    | cons op ops ih =>
      exact ih (stepOp db op) (stepOp_nonneg db op h)
  · intro wid q w hf
    constructor
    · intro hle
      simp only [updateStockDb, hf]
      rw [if_neg (by omega)]
    · intro hlt
      simp only [updateStockDb, hf]
      rw [if_pos hlt]

/-- C1 witness: a concrete interleaving of guarded decrements against a
warehouse with stock 5 keeps stock nonnegative. -/
theorem claim1_stock_nonnegative_witness :
    nonnegStocks ([CoreOp.stockOp 1 3, CoreOp.stockOp 1 7,
      CoreOp.stockOp 1 2].foldl stepOp dbOne) :=
  (claim1_stock_nonnegative [CoreOp.stockOp 1 3, CoreOp.stockOp 1 7,
    CoreOp.stockOp 1 2] dbOne (by decide)).1

/-- C2: every Create attempt that fails at any point — verification
(insufficient stock or the shipping cap), the `Order` insert, an
`OrderItem` insert, a missing warehouse, the stock recheck, or the
blocked stock save timing out — leaves no observable partial state: the
resulting database equals the initial one, so no Order row and no
OrderItem row exist for the failed attempt and every warehouse's stock is
unchanged.  (The out-of-transaction `save()` in `updateStock` cannot
commit while the create transaction holds the row lock it is waiting on,
so a failed attempt never has a committed stock write to leak.) -/
theorem claim2_failed_create_atomic (db : Db) (rows : List WhRow) (q : Int)
    (oid : Nat) (orderFail : Bool) (itemFail : Nat → Bool) (e : OrderError)
    (h : (createOrder db rows q oid orderFail itemFail).result = .error e) :
    (createOrder db rows q oid orderFail itemFail).db = db := by
  rcases createOrder_db_eq_or_ok db rows q oid orderFail itemFail with hdb | ⟨order, hok⟩
  · exact hdb
  · rw [hok] at h
    exact absurd h (by simp)

/-- C2 witness: a concrete failing attempt — two warehouses with stock 5,
quantity 10; the (inevitable) abort at the first blocked stock save rolls
everything back and the database is unchanged. -/
theorem claim2_failed_create_atomic_witness :
    (createOrder dbPair dbPair.warehouses 10 7 false (fun _ => false)).db = dbPair :=
  claim2_failed_create_atomic dbPair dbPair.warehouses 10 7 false (fun _ => false)
    .lockTimeout
    (by norm_num [createOrder, verifyOrder, findOptimalWarehouses, allocateLoop,
      calculateOrderCosts, validateShippingCost, createLoop, mkLine,
      SHIPPING_RATE, DEVICE_WEIGHT_KG, DEVICE_PRICE, calculateDiscount, dbPair])

/-- C3: every successful allocation conserves quantity — the line
quantities sum to the request — and each line draws
`min(remainingQuantity, warehouseStock)` from its warehouse, in particular
never more than that warehouse's pre-allocation stock. -/
theorem claim3_allocation_conservation (rows : List WhRow) (q : Int)
    (allocs : List WarehouseAllocation) (hq : 0 ≤ q)
    (hok : findOptimalWarehouses rows q = .ok allocs) :
    sumQ allocs = q ∧
    (∀ a ∈ allocs, ∃ w ∈ rows, a.warehouseId = w.wid ∧ 0 < a.quantity ∧
      a.quantity ≤ w.stock) ∧
    ∀ i a, allocs.get? i = some a →
      ∃ w ∈ rows, a = mkLine w (min w.stock (q - sumQ (allocs.take i))) := by
  have hrem : ¬ 0 < (allocateLoop rows q).2 := by
    intro hpos
    simp [findOptimalWarehouses, hpos] at hok
  obtain rfl : (allocateLoop rows q).1 = allocs := by
    simpa [findOptimalWarehouses, hrem] using hok
  refine ⟨?_, ?_, ?_⟩
  · have h1 := allocateLoop_sum rows q
    have h2 := allocateLoop_nonneg rows q hq
    omega
  · intro a ha
    obtain ⟨w, hw, hid, _, _, hpos, hle, _⟩ := allocateLoop_mem rows q a ha
    exact ⟨w, hw, hid, hpos, hle⟩
  · intro i a ha
    exact allocateLoop_get rows q i a ha

/-- C3 witness: allocating 7 units over warehouses with stocks 3 and 5
draws 3 + 4 = 7. -/
theorem claim3_allocation_conservation_witness : sumQ allocsTwo = 7 :=
  (claim3_allocation_conservation rowsTwo 7 allocsTwo (by decide)
    (by simp [findOptimalWarehouses, allocateLoop, rowsTwo, allocsTwo, mkLine,
      SHIPPING_RATE, DEVICE_WEIGHT_KG])).1

/-- C4: pricing determinism — `basePrice = quantity * 150` exactly,
the discount rate is the spec's lower-inclusive tier step function
(checked at every boundary: 24→0%, 25→5%, 49→5%, 50→10%, 99→10%, 100→15%,
249→15%, 250→20%), `discountAmount = basePrice * discountRate` and
`totalPrice = basePrice - discountAmount`, all in exact (rational)
arithmetic. -/
theorem claim4_pricing_determinism (q : Int) (allocs : List WarehouseAllocation) :
    (calculateOrderCosts q allocs).basePrice = (q : ℚ) * 150 ∧
    calculateDiscount q = discountRateSpec q ∧
    (calculateOrderCosts q allocs).discount =
      (calculateOrderCosts q allocs).basePrice * calculateDiscount q ∧
    (calculateOrderCosts q allocs).totalPrice =
      (calculateOrderCosts q allocs).basePrice - (calculateOrderCosts q allocs).discount ∧
    calculateDiscount 24 = 0 ∧ calculateDiscount 25 = 5 / 100 ∧
    calculateDiscount 49 = 5 / 100 ∧ calculateDiscount 50 = 1 / 10 ∧
    calculateDiscount 99 = 1 / 10 ∧ calculateDiscount 100 = 15 / 100 ∧
    calculateDiscount 249 = 15 / 100 ∧ calculateDiscount 250 = 2 / 10 := by
  refine ⟨?_, ?_, ?_, ?_, ?_, ?_, ?_, ?_, ?_, ?_, ?_, ?_⟩
  · simp [calculateOrderCosts, DEVICE_PRICE]; ring
  · unfold calculateDiscount discountRateSpec
    split_ifs <;> first | rfl | omega
  · simp [calculateOrderCosts]
  · simp [calculateOrderCosts]
  all_goals norm_num [calculateDiscount]

/-- C5: the shipping-cost validation rejects exactly when the shipping
cost strictly exceeds 15% of the discounted total (`totalPrice`, not the
base price); equality at the threshold is valid and one cent above is
rejected; `verifyOrder` fails with the cap error exactly when the computed
costs violate the threshold. -/
theorem claim5_shipping_cap_boundary (tp sc : ℚ) (q : Int) (rows : List WhRow)
    (allocs : List WarehouseAllocation)
    (hok : findOptimalWarehouses rows q = .ok allocs) :
    (validateShippingCost tp sc = .error .shippingCostExceeded ↔ tp * (15 / 100) < sc) ∧
    (validateShippingCost tp sc = .ok () ↔ sc ≤ tp * (15 / 100)) ∧
    validateShippingCost 100 15 = .ok () ∧
    validateShippingCost 100 (15 + 1 / 100) = .error .shippingCostExceeded ∧
    (verifyOrder q rows = .error .shippingCostExceeded ↔
      (calculateOrderCosts q allocs).totalPrice * (15 / 100) <
        (calculateOrderCosts q allocs).shippingCost) := by
  refine ⟨?_, ?_, ?_, ?_, ?_⟩
  · by_cases hc : tp * (15 / 100) < sc
    · simp [validateShippingCost, hc]
    · simp [validateShippingCost, hc]
  · by_cases hc : tp * (15 / 100) < sc
    · simp only [validateShippingCost, if_pos hc]
      constructor
      · intro he
        exact absurd he (by simp)
      · intro hle
        exact absurd hc (not_lt.mpr hle)
    · simp only [validateShippingCost, if_neg hc]
      simp [not_lt.mp hc]
  · norm_num [validateShippingCost]
  · norm_num [validateShippingCost]
  · constructor
    · intro he
      by_contra hv
      rw [verifyOrder_ok_valid q rows allocs hok hv] at he
      exact absurd he (by simp)
    · intro hv
      exact verifyOrder_ok_invalid q rows allocs hok hv

/-- C5 witness: the boundary instance, reached through the theorem at the
concrete allocation of `rowsTwo`. -/
theorem claim5_shipping_cap_boundary_witness : validateShippingCost 100 15 = .ok () :=
  (claim5_shipping_cap_boundary 100 15 7 rowsTwo allocsTwo
    (by simp [findOptimalWarehouses, allocateLoop, rowsTwo, allocsTwo, mkLine,
      SHIPPING_RATE, DEVICE_WEIGHT_KG])).2.2.1

/-- C6 counterexample: with two equidistant warehouses, both orders of the
rows satisfy the SQL query contract (`WHERE stock > 0 ORDER BY distance
ASC` has no secondary sort key), and the two admissible orders produce
different allocation-line sequences — so allocation is not deterministic
with ties broken by warehouse identity order, as the claim states. -/
theorem claim6_tie_counterexample :
    warehousesByDistanceResult tieTbl tieTbl ∧
    warehousesByDistanceResult tieTbl tieRowsBA ∧
    findOptimalWarehouses tieTbl 3 ≠ findOptimalWarehouses tieRowsBA 3 := by
  refine ⟨by decide, by decide, ?_⟩
  simp [findOptimalWarehouses, allocateLoop, tieTbl, tieRowsBA, mkLine,
    SHIPPING_RATE, DEVICE_WEIGHT_KG]

/-- C6 amended: allocation considers only warehouses with positive stock,
the query returns them in non-decreasing distance order, and the emitted
allocation lines are in non-decreasing distance order; but the order among
equidistant warehouses is whatever the database returns (the query has no
tie-break key), so the line sequence is not guaranteed identical across
runs. -/
theorem claim6_amended_nearest_first (table rows : List WhRow) (q : Int)
    (allocs : List WarehouseAllocation)
    (hadm : warehousesByDistanceResult table rows)
    (hok : findOptimalWarehouses rows q = .ok allocs) :
    (∀ a ∈ allocs, ∃ w ∈ table, 0 < w.stock ∧ a.warehouseId = w.wid ∧
      a.distance = w.distance) ∧
    List.Pairwise (fun a b => a.distance ≤ b.distance) allocs := by
  have hrem : ¬ 0 < (allocateLoop rows q).2 := by
    intro hpos
    simp [findOptimalWarehouses, hpos] at hok
  obtain rfl : (allocateLoop rows q).1 = allocs := by
    simpa [findOptimalWarehouses, hrem] using hok
  constructor
  · intro a ha
    obtain ⟨w, hw, hid, _, hd, hpos, hle, _⟩ := allocateLoop_mem rows q a ha
    have hwf : w ∈ table.filter (fun w => 0 < w.stock) := hadm.1.mem_iff.mp hw
    rw [List.mem_filter] at hwf
    exact ⟨w, hwf.1, by simpa using hwf.2, hid, hd⟩
  · exact allocateLoop_sorted rows q hadm.2

/-- C6 amended witness: the concrete two-warehouse query result. -/
theorem claim6_amended_nearest_first_witness :
    List.Pairwise (fun a b => a.distance ≤ b.distance) allocsTwo :=
  (claim6_amended_nearest_first rowsTwo rowsTwo 7 allocsTwo (by decide)
    (by simp [findOptimalWarehouses, allocateLoop, rowsTwo, allocsTwo, mkLine,
      SHIPPING_RATE, DEVICE_WEIGHT_KG])).2

/-- C7 counterexample: for an allocation violating the 15% cap, Verify
does not return a Quote carrying a false validity flag — it throws: the
result is the `shippingCostExceeded` error and no quote value exists (the
service's `OrderResult` has no validity field, and the order model's
`isValid` column is never set to `false` anywhere in the service). -/
theorem claim7_verify_throws_counterexample :
    verifyOrder 1 rowsFar = .error .shippingCostExceeded ∧
    (verifyOrder 1 rowsFar).toOption = none := by
  have h : verifyOrder 1 rowsFar = .error .shippingCostExceeded := by
    norm_num [verifyOrder, findOptimalWarehouses, allocateLoop, rowsFar,
      calculateOrderCosts, validateShippingCost, calculateDiscount,
      SHIPPING_RATE, DEVICE_WEIGHT_KG, DEVICE_PRICE]
  exact ⟨h, by rw [h]; rfl⟩

/-- C7 amended: the 15%-cap check is the same pure comparison in both
paths, but both surface a violation as a thrown error: Verify returns the
`shippingCostExceeded` error (no Quote, no validity flag), and Create —
which runs the same verification first — rejects with the same error
before any persistence, leaving the database unchanged. -/
theorem claim7_amended_error_surfacing (q : Int) (rows : List WhRow) (db : Db)
    (oid : Nat) (orderFail : Bool) (itemFail : Nat → Bool)
    (h : verifyOrder q rows = .error .shippingCostExceeded) :
    createOrder db rows q oid orderFail itemFail = ⟨.error .shippingCostExceeded, db⟩ ∧
    ∀ allocs, findOptimalWarehouses rows q = .ok allocs →
      (calculateOrderCosts q allocs).totalPrice * (15 / 100) <
        (calculateOrderCosts q allocs).shippingCost := by
  constructor
  · exact createOrder_verify_error db rows q oid orderFail itemFail _ h
  · intro allocs hok
    by_contra hv
    rw [verifyOrder_ok_valid q rows allocs hok hv] at h
    exact absurd h (by simp)

/-- C7 amended witness: creating from the far warehouse is rejected with
the cap error and the database is unchanged. -/
theorem claim7_amended_error_surfacing_witness :
    createOrder dbFar rowsFar 1 7 false (fun _ => false) =
      ⟨.error .shippingCostExceeded, dbFar⟩ :=
  (claim7_amended_error_surfacing 1 rowsFar dbFar 7 false (fun _ => false)
    (by norm_num [verifyOrder, findOptimalWarehouses, allocateLoop, rowsFar,
      calculateOrderCosts, validateShippingCost, calculateDiscount,
      SHIPPING_RATE, DEVICE_WEIGHT_KG, DEVICE_PRICE])).1

/-- C8: when the requested quantity exceeds the total stock of all
candidate warehouses, allocation fails with `insufficientStock` carrying
the exact shortfall (request minus total allocatable stock), no allocation
list is returned, and a Create with such a request returns the same error
with the database unchanged — no Order row is created. -/
theorem claim8_insufficient_stock_exact_shortfall (rows : List WhRow) (q : Int)
    (hpos : ∀ w ∈ rows, 0 < w.stock) (hlt : sumStocks rows < q) :
    findOptimalWarehouses rows q = .error (.insufficientStock (q - sumStocks rows)) ∧
    ∀ db oid orderFail itemFail, createOrder db rows q oid orderFail itemFail =
      ⟨.error (.insufficientStock (q - sumStocks rows)), db⟩ := by
  have hdrain : (allocateLoop rows q).2 = q - sumStocks rows :=
    allocateLoop_drain rows q hpos (le_of_lt hlt)
  have hfind : findOptimalWarehouses rows q =
      .error (.insufficientStock (q - sumStocks rows)) := by
    simp only [findOptimalWarehouses, hdrain]
    rw [if_pos (by omega)]
  refine ⟨hfind, ?_⟩
  intro db oid orderFail itemFail
  exact createOrder_verify_error db rows q oid orderFail itemFail _
    (verifyOrder_alloc_error q rows _ hfind)

/-- C8 witness: requesting 10 from total stock 8 fails with shortfall 2. -/
theorem claim8_insufficient_stock_exact_shortfall_witness :
    findOptimalWarehouses rowsTwo 10 =
      .error (.insufficientStock (10 - sumStocks rowsTwo)) :=
  (claim8_insufficient_stock_exact_shortfall rowsTwo 10 (by decide) (by decide)).1

/-- C9: Delete removes the order row and cascade-deletes exactly its
OrderItem rows (other orders and items are untouched), surfaces an unknown
id as NotFound, and never changes any warehouse's stock (no restocking). -/
theorem claim9_delete_cascades_no_restock (db : Db) (oid : Nat) :
    (deleteOrder db oid).2.warehouses = db.warehouses ∧
    (∀ o ∈ (deleteOrder db oid).2.orders, o.oid ≠ oid) ∧
    (∀ it ∈ (deleteOrder db oid).2.orderItems, it.orderId ≠ oid) ∧
    (∀ o ∈ db.orders, o.oid ≠ oid → o ∈ (deleteOrder db oid).2.orders) ∧
    (∀ it ∈ db.orderItems, it.orderId ≠ oid → it ∈ (deleteOrder db oid).2.orderItems) ∧
    ((deleteOrder db oid).1 = true ↔ ∃ o ∈ db.orders, o.oid = oid) ∧
    (deleteOrderEndpoint db oid = .error .notFound ↔ ∀ o ∈ db.orders, o.oid ≠ oid) := by
  refine ⟨rfl, ?_, ?_, ?_, ?_, ?_, ?_⟩
  · intro o ho
    simp only [deleteOrder, List.mem_filter, decide_not, Bool.not_eq_eq_eq_not,
      Bool.not_true, decide_eq_false_iff_not] at ho
    exact ho.2
  · intro it hit
    simp only [deleteOrder, List.mem_filter, decide_not, Bool.not_eq_eq_eq_not,
      Bool.not_true, decide_eq_false_iff_not] at hit
    exact hit.2
  · intro o ho hne
    simp only [deleteOrder, List.mem_filter]
    simp [ho, hne]
  · intro it hit hne
    simp only [deleteOrder, List.mem_filter]
    simp [hit, hne]
  · simp [deleteOrder, List.any_eq_true]
  · rcases hany : db.orders.any (fun o => o.oid = oid) with _ | _
    · simp only [deleteOrderEndpoint, deleteOrder, hany, Bool.false_eq_true,
        if_false]
      simp only [List.any_eq_false, decide_eq_true_eq] at hany
      simpa using hany
    · simp only [deleteOrderEndpoint, deleteOrder, hany, if_true]
      obtain ⟨o, ho, he⟩ := List.any_eq_true.mp hany
      simp only [decide_eq_true_eq] at he
      constructor
      · intro hcontra
        exact absurd hcontra (by simp)
      · intro hall
        exact absurd he (hall o ho)

/-- C9 witness: deleting order 4 from the concrete database keeps the
warehouses intact, and deleting an unknown id is NotFound. -/
theorem claim9_delete_cascades_no_restock_witness :
    (deleteOrder dbDel 4).2.warehouses = dbDel.warehouses ∧
    deleteOrderEndpoint dbDel 9 = .error .notFound :=
  ⟨(claim9_delete_cascades_no_restock dbDel 4).1,
   (claim9_delete_cascades_no_restock dbDel 9).2.2.2.2.2.2.mpr (by decide)⟩

/-- C10: calling Verify with quantity 0 (below the documented positive
precondition, which the core does not enforce) does not fail: it returns a
quote with an empty allocation list and base price, discount, total and
shipping cost all zero — the loop draws nothing and the strict 15% check
does not reject 0 > 0. -/
theorem claim10_verify_zero_quantity (rows : List WhRow) :
    verifyOrder 0 rows = .ok ⟨0, 0, 0, 0, 0, []⟩ := by
  have hz : allocateLoop rows 0 = ([], 0) := by
    cases rows with
    | nil => rfl
    | cons w ws => exact allocateLoop_cons_break w ws 0 le_rfl
  have hf : findOptimalWarehouses rows 0 = .ok [] := by
    simp [findOptimalWarehouses, hz]
  norm_num [verifyOrder, hf, calculateOrderCosts, calculateDiscount,
    validateShippingCost, DEVICE_PRICE]
